import Mathlib

/-!
Verification of the Tor-Search MCP server core (`server.py`).

The server keeps four pieces of module-level mutable state guarded by one
lock: the Tor process handle, its start timestamp, the list of search
results of the last `get_sources` call, and the `_fetch_pages_called`
flag.  The three MCP tools `get_sources`, `fetch_pages` and
`fetch_specific_page` are embedded below as pure state-passing functions.
External collaborators (the DDGS search provider, `BACKEND.fetch_urls`,
`json.loads`/Trafilatura) are passed in as function parameters; wall-clock
time is passed in as an explicit `Nat` (`time.time()` in seconds).
-/

namespace TorSearch

/-- One raw hit from the DDGS search provider: `{title, href, body}`
(with `r.get(..., "")` defaults already applied). -/
structure RawHit where
  title : String
  href : String
  body : String
deriving DecidableEq, Repr

/-- One entry of `_last_search_results`:
`{"index": i, "title": t, "url": u, "snippet": s}`. -/
structure SearchResult where
  index : Int
  title : String
  url : String
  snippet : String
deriving DecidableEq, Repr

/-- The value stored for a URL by `BACKEND.fetch_urls`: either a string
(raw HTML / Trafilatura JSON) or an error dict `{"error": ..., "message": ...}`. -/
inductive Outcome where
  | content (s : String)
  | err (kind : String) (msg : String)
deriving DecidableEq, Repr

/-- A Python exception escaping a tool call: `ValueError` or `RuntimeError`
with its message. -/
inductive SrvError where
  | valueError (msg : String)
  | runtimeError (msg : String)
deriving DecidableEq, Repr

/-- The module-level mutable state of `server.py`:
`_tor_process` (abstracted to whether a live handle is held),
`_tor_start_time`, `_last_search_results`, `_fetch_pages_called`.
The SOCKS/control ports and bundle/profile paths are set and cleared in
lock-step with the process handle and carry no claim-relevant
information, so they are not duplicated here. -/
structure ServerState where
  torProcess : Bool
  torStartTime : Option Nat
  lastSearchResults : List SearchResult
  fetchPagesCalled : Bool
deriving DecidableEq, Repr

/-- `_kill_tor`: if a process handle is held, kill it (best effort) and
clear the process fields; otherwise do nothing. -/
def kill_tor (st : ServerState) : ServerState :=
  if st.torProcess then { st with torProcess := false, torStartTime := none } else st

/-- `_check_tor_timeout`: returns `False` when no process or no start
time is recorded; otherwise kills Tor and returns `False` when
`time.time() - _tor_start_time > TOR_KEEPALIVE_SECONDS`, else returns
`True`.  The keepalive period is configuration (`keepalive`), the current
wall clock is `now`. -/
def check_tor_timeout (keepalive now : Nat) (st : ServerState) : Bool × ServerState :=
  match st.torStartTime with
  | none => (false, st)
  | some start =>
    if st.torProcess = false then (false, st)
    else if now - start > keepalive then (false, kill_tor st)
    else (true, st)

/-- Snippet truncation in `get_sources`:
`if len(snippet) > 125: snippet = snippet[:125] + "..."`. -/
def truncSnippet (body : String) : String :=
  if body.length > 125 then body.take 125 ++ "..." else body

/-- The inner loop of `get_sources` over one query's provider hits:
skip a hit whose `href` is already in `seen_urls`, otherwise record it
with the next sequential index and the truncated snippet.  Returns the
surviving items, the updated seen set and the next free index. -/
def processQuery : List RawHit → List String → Int → List SearchResult × List String × Int
  | [], seen, idx => ([], seen, idx)
  | r :: rs, seen, idx =>
    if r.href ∈ seen then processQuery rs seen idx
    else
      let item : SearchResult :=
        { index := idx, title := r.title, url := r.href, snippet := truncSnippet r.body }
      let rest := processQuery rs (r.href :: seen) (idx + 1)
      (item :: rest.1, rest.2)

/-- The query loop of `get_sources`: one seen-URL set and one running
index across all queries.  The provider may raise (`Except.error`); in
that case the items appended so far (the first component) have already
been written to `_last_search_results` before the exception propagates. -/
def runQueries (provider : String → Except String (List RawHit)) :
    List String → List String → Int →
    List SearchResult × Except String (List (String × List SearchResult))
  | [], _, _ => ([], .ok [])
  | q :: qs, seen, idx =>
    match provider q with
    | .error e => ([], .error e)
    | .ok hits =>
      let p := processQuery hits seen idx
      let rest := runQueries provider qs p.2.1 p.2.2
      (p.1 ++ rest.1, rest.2.map (fun groups => (q, p.1) :: groups))

/-- `"\n".join(f"> {line}" for line in snippet.split("\n"))`. -/
def blockquote (snippet : String) : String :=
  String.intercalate "\n" ((snippet.splitOn "\n").map (fun line => "> " ++ line))

/-- One `### {idx}. [{title}]({url})\n{blockquote}` entry of the
`get_sources` Markdown output. -/
def formatEntry (item : SearchResult) : String :=
  "### " ++ toString item.index ++ ". [" ++ item.title ++ "](" ++ item.url ++ ")\n"
    ++ blockquote item.snippet

/-- The `output_parts` contributed by one query group in `get_sources`. -/
def formatGroup (g : String × List SearchResult) : List String :=
  ("## Query: \"" ++ g.1 ++ "\"") ::
    (if g.2 = [] then ["_No unique results for this query._\n"]
     else [String.intercalate "\n\n" (g.2.map formatEntry)]) ++ [""]

/-- `"\n".join(output_parts)` over all query groups. -/
def formatSearchOutput (groups : List (String × List SearchResult)) : String :=
  String.intercalate "\n" (groups.map formatGroup).flatten

/-- The `get_sources` tool.  `provider q` models
`list(ddgs.text(q, region=..., safesearch=..., max_results=5))` through
the active Tor proxy (raising is modelled by `Except.error`);
`startResult` models `_start_tor` (`none` = success, `some msg` = the
`RuntimeError` it raises); `now` is the wall clock at Tor start, recorded
as `_tor_start_time`.  Returns the new global state and either the
Markdown output or the escaping exception. -/
def get_sources (provider : String → Except String (List RawHit))
    (startResult : Option String) (now : Nat) (queries : List String)
    (st : ServerState) : ServerState × Except SrvError String :=
  if queries.length = 0 then
    (st, .error (.valueError "At least one query is required."))
  else if queries.length > 3 then
    (st, .error (.valueError "Maximum of 3 queries allowed."))
  else
    let st1 := if st.torProcess then kill_tor st else st
    match startResult with
    | some e => (kill_tor st1, .error (.runtimeError e))
    | none =>
      let st2 := { st1 with torProcess := true, torStartTime := some now }
      let run := runQueries provider queries [] 1
      match run.2 with
      | .error e =>
        (kill_tor { st2 with lastSearchResults := run.1 }, .error (.runtimeError e))
      | .ok groups =>
        ({ st2 with lastSearchResults := run.1, fetchPagesCalled := false },
         .ok (formatSearchOutput groups))

/-- The set `valid_indexes = {item["index"] for item in _last_search_results}`
(as a deduplicated list). -/
def validIndexes (results : List SearchResult) : List Int :=
  (results.map (fun item => item.index)).dedup

/-- Ascending insertion used to model Python `sorted`. -/
def insertSorted (x : Int) : List Int → List Int
  | [] => [x]
  | y :: ys => if x ≤ y then x :: y :: ys else y :: insertSorted x ys

/-- Python `sorted` on a list of ints. -/
def sortInts (l : List Int) : List Int := l.foldr insertSorted []

/-- Python `repr` of a list of ints, as interpolated into the
invalid-index error message: `[1, 2, 3]`. -/
def pyListRepr (l : List Int) : String :=
  "[" ++ String.intercalate ", " (l.map toString) ++ "]"

/-- The first requested index not in `valid_indexes` (the loop in
`fetch_pages` raises at the first offender). -/
def firstInvalid (valid : List Int) : List Int → Option Int
  | [] => none
  | i :: is => if i ∈ valid then firstInvalid valid is else some i

/-- `urls_to_fetch`: the URLs of the stored results whose index occurs in
the requested list, in stored-result order (so each stored result
contributes at most once, whatever the multiplicity in `indexes`). -/
def urls_to_fetch (indexes : List Int) (results : List SearchResult) : List String :=
  (results.filter (fun item => decide (item.index ∈ indexes))).map (fun item => item.url)

/-- `f"Maximum of 5 pages can be fetched per call. You requested {n}. ..."`. -/
def tooManyMsg (n : Nat) : String :=
  "Maximum of 5 pages can be fetched per call. You requested " ++ toString n ++
    ". Choose the most relevant indexes based on snippets and source credibility."

/-- `f"Invalid index {idx}. Valid indexes are: {sorted(valid_indexes)}"`. -/
def invalidIndexMsg (idx : Int) (results : List SearchResult) : String :=
  "Invalid index " ++ toString idx ++ ". Valid indexes are: " ++
    pyListRepr (sortInts (validIndexes results))

/-- Message of the first `fetch_pages` check. -/
def noSearchMsg : String :=
  "No search results available. You must call get_sources first before fetch_pages."

/-- Message of the second `fetch_pages` check. -/
def alreadyFetchedMsg : String :=
  "fetch_pages has already been called for this search. Call get_sources again to perform a new search."

/-- Message of the Tor-timeout `fetch_pages` check. -/
def torTimeoutMsg : String :=
  "Tor connection has timed out. Call get_sources again to start a new search."

/-- Message of the empty-URL-list `fetch_pages` check. -/
def noUrlsMsg : String := "No valid URLs to fetch based on provided indexes."

/-- Rendering of one fetched value in the `fetch_pages` output:
a string is run through `json.loads(...)["text"]` (modelled by the
`jsonText` oracle, `none` = `JSONDecodeError` or missing key, falling
back to the raw string), an error dict is rendered inline, a missing URL
yields the no-content line. -/
def renderContent (jsonText : String → Option String) : Option Outcome → String
  | some (.content s) =>
    match jsonText s with
    | some t => t
    | none => s
  | some (.err kind msg) => "**Error fetching page:** [" ++ kind ++ "] " ++ msg
  | none => "**Error:** No content retrieved"

/-- The four `output_parts` one selected result contributes in
`fetch_pages`. -/
def fetchItemParts (jsonText : String → Option String)
    (fetched : List (String × Outcome)) (item : SearchResult) : List String :=
  ["## " ++ toString item.index ++ ". " ++ item.title,
   "URL: " ++ item.url ++ "\n",
   renderContent jsonText (fetched.lookup item.url),
   "\n---\n"]

/-- `"\n".join(output_parts)` over the selected results, in stored order. -/
def formatFetchOutput (jsonText : String → Option String) (indexes : List Int)
    (results : List SearchResult) (fetched : List (String × Outcome)) : String :=
  String.intercalate "\n"
    (((results.filter (fun item => decide (item.index ∈ indexes))).map
        (fetchItemParts jsonText fetched)).flatten)

/-- The `fetch_pages` tool.  `fetchUrls` models `BACKEND.fetch_urls`
(which never raises: `_fetch_urls_with_browser` converts every internal
exception into per-URL error outcomes); `jsonText` models
`json.loads(...).get("text", ...)`.  Checks happen in source order:
empty result set, already-fetched flag, Tor timeout (which may itself
kill Tor), more than five indexes, first invalid index, empty resolved
URL list; only then is `_fetch_pages_called` set, the fetch performed,
and Tor unconditionally killed in the `finally` block. -/
def fetch_pages (fetchUrls : List String → List (String × Outcome))
    (jsonText : String → Option String) (keepalive now : Nat)
    (indexes : List Int) (st : ServerState) : ServerState × Except SrvError String :=
  if st.lastSearchResults = [] then
    (st, .error (.runtimeError noSearchMsg))
  else if st.fetchPagesCalled then
    (st, .error (.runtimeError alreadyFetchedMsg))
  else
    let chk := check_tor_timeout keepalive now st
    if chk.1 = false then
      (chk.2, .error (.runtimeError torTimeoutMsg))
    else if indexes.length > 5 then
      (chk.2, .error (.valueError (tooManyMsg indexes.length)))
    else
      match firstInvalid (validIndexes chk.2.lastSearchResults) indexes with
      | some idx =>
        (chk.2, .error (.valueError (invalidIndexMsg idx chk.2.lastSearchResults)))
      | none =>
        let urls := urls_to_fetch indexes chk.2.lastSearchResults
        if urls = [] then (chk.2, .error (.valueError noUrlsMsg))
        else
          let st2 := { chk.2 with fetchPagesCalled := true }
          let fetched := fetchUrls urls
          (kill_tor st2,
           .ok (formatFetchOutput jsonText indexes st2.lastSearchResults fetched))

/-- The `fetch_specific_page` tool: stop Tor if running, start a fresh
Tor (`startResult` as in `get_sources`), fetch the single URL, render or
raise, and always kill Tor in the `finally` block. -/
def fetch_specific_page (fetchUrls : List String → List (String × Outcome))
    (jsonText : String → Option String) (startResult : Option String)
    (now : Nat) (url : String) (st : ServerState) : ServerState × Except SrvError String :=
  let st1 := if st.torProcess then kill_tor st else st
  match startResult with
  | some e => (kill_tor st1, .error (.runtimeError e))
  | none =>
    let st2 := { st1 with torProcess := true, torStartTime := some now }
    let fetched := fetchUrls [url]
    match fetched.lookup url with
    | some (.content s) =>
      let body :=
        match jsonText s with
        | some t => t
        | none => s
      (kill_tor st2, .ok ("## Content from " ++ url ++ "\n\n" ++ body))
    | some (.err kind msg) =>
      (kill_tor st2, .error (.runtimeError ("Failed to fetch page: [" ++ kind ++ "] " ++ msg)))
    | none => (kill_tor st2, .error (.runtimeError "No content retrieved from page"))

/-- The timeout outcome written for all undispatched URLs when the
overall deadline has elapsed at a batch boundary. -/
def timeoutOutcome : Outcome := .err "timeout" "Overall timeout reached"

/-- `urls[i:i+N]` batching of `_fetch_urls_with_browser`:
consecutive chunks of size at most `n`.  (`n = 0` would make Python's
`range(0, len(urls), 0)` raise; `MAX_CONCURRENT_TABS` is a positive
configuration value, so that case is mapped to the empty partition.) -/
def chunkList (n : Nat) : List String → List (List String)
  | [] => []
  | u :: us =>
    if _h : n = 0 then []
    else (u :: us).take n :: chunkList n ((u :: us).drop n)
termination_by urls => urls.length
decreasing_by
  simp only [List.length_drop, List.length_cons]
  omega

/-- The batch loop of `_fetch_urls_with_browser`.  `doBatch b` models one
`_dispatch_batch` / `_collect_batch` round for batch `b` (an association
list of per-URL outcomes); `past k` models
`deadline is not None and time.time() > deadline` observed at the check
preceding batch number `k`.  Returns the accumulated `all_results`
association list and the list of URLs that were actually dispatched.
When `past k` holds, every remaining URL receives `timeoutOutcome` and
the loop breaks. -/
def fetchLoop (doBatch : List String → List (String × Outcome)) (past : Nat → Bool)
    (n : Nat) (k : Nat) : List String → List (String × Outcome) × List String
  | [] => ([], [])
  | u :: us =>
    if past k then ((u :: us).map (fun v => (v, timeoutOutcome)), [])
    else if _h : n = 0 then ([], [])
    else
      let batch := (u :: us).take n
      let rest := fetchLoop doBatch past n (k + 1) ((u :: us).drop n)
      (doBatch batch ++ rest.1, batch ++ rest.2)
termination_by urls => urls.length
decreasing_by
  simp only [List.length_drop, List.length_cons]
  omega

/-- The per-outcome action of the Trafilatura post-processing loop:
string content is replaced by its extraction (`ex html url`), a failed
extraction becomes an `extraction_error`, error dicts pass through. -/
def extractOutcome (ex : String → String → Option String) (url : String) :
    Outcome → Outcome
  | .content html =>
    match ex html url with
    | some e => .content e
    | none => .err "extraction_error" "Trafilatura failed to extract content"
  | .err kind msg => .err kind msg

/-- The Trafilatura post-processing loop over `all_results`. -/
def extractPhase (ex : String → String → Option String)
    (l : List (String × Outcome)) : List (String × Outcome) :=
  l.map (fun p => (p.1, extractOutcome ex p.1 p.2))

/-- `_fetch_urls_with_browser` at the outcome level: batch the URLs with
bound `n = MAX_CONCURRENT_TABS`, run the dispatch/collect rounds under
the deadline observations `past`, then post-process with Trafilatura. -/
def fetch_urls_with_browser (doBatch : List String → List (String × Outcome))
    (past : Nat → Bool) (ex : String → String → Option String)
    (n : Nat) (urls : List String) : List (String × Outcome) :=
  extractPhase ex (fetchLoop doBatch past n 0 urls).1

/-! ### Tab-count model of `_dispatch_batch` / `_collect_batch`

For the open-tab invariant only the browser's window state matters.  A
`Driver` holds the ordered list of open window handles, the current
handle, and the next fresh handle id.  Each handle's trip through
`_collect_batch` is summarised by a `TabFate`:

* `tabError` — `driver.switch_to.window(handle)` raised in the sweep
  loop: the handle is dropped from `pending` without being closed;
* `scriptError` — the switch succeeded but
  `driver.execute_script("return document.readyState;")` raised: dropped
  without being closed;
* `readyClose ok` — the page reached a ready state and was captured;
  `driver.close()` is attempted if more than one window remains (`ok`
  tells whether that `close` succeeded, a failed close being swallowed);
* `lateClose ok` — the tab never became ready; in the post-loop timeout
  handler the switch succeeded, a best-effort capture was taken, and
  `driver.close()` was attempted if more than one window remains;
* `lateSwitchFail` — in the post-loop timeout handler the switch itself
  raised: the tab is left open. -/

/-- Summary of one handle's trip through `_collect_batch` (see above). -/
inductive TabFate where
  | tabError
  | scriptError
  | readyClose (ok : Bool)
  | lateClose (ok : Bool)
  | lateSwitchFail
deriving DecidableEq, Repr

/-- Browser window state: open handles in order, current handle, next
fresh handle id. -/
structure Driver where
  tabs : List Nat
  current : Nat
  nextId : Nat
deriving DecidableEq, Repr

/-- `driver.execute_script("window.open('');")` followed by
`driver.switch_to.window(driver.window_handles[-1])`: append a fresh
handle and make it current. -/
def openTab (d : Driver) : Driver × Nat :=
  ({ tabs := d.tabs ++ [d.nextId], current := d.nextId, nextId := d.nextId + 1 }, d.nextId)

/-- The tail of `_dispatch_batch` (every URL but the first opens a new
tab; navigation itself does not change the window state). -/
def dispatchRest (d : Driver) : List String → Driver × List Nat
  | [] => (d, [])
  | _ :: rest =>
    let o := openTab d
    let r := dispatchRest o.1 rest
    (r.1, o.2 :: r.2)

/-- `_dispatch_batch`: the first URL of a batch reuses
`driver.current_window_handle`; each further URL opens a new tab.
Returns the new window state and the handles of the batch
(the keys of `tab_url_map`). -/
def dispatch_batch (d : Driver) (urls : List String) : Driver × List Nat :=
  match urls with
  | [] => (d, [])
  | _ :: rest =>
    let h0 := d.current
    let r := dispatchRest d rest
    (r.1, h0 :: r.2)

/-- `if len(driver.window_handles) > 1: driver.close()`: close the
current window when more than one is open; a raising `close` (`ok =
false`) is swallowed and leaves the window open. -/
def closeIfMany (d : Driver) (ok : Bool) : Driver :=
  if d.tabs.length > 1 then
    (if ok then { d with tabs := d.tabs.erase d.current } else d)
  else d

/-- `_collect_batch` restricted to its effect on the window state: each
handle of the batch is processed once according to its `TabFate`. -/
def collect_batch (fate : Nat → TabFate) (d : Driver) : List Nat → Driver
  | [] => d
  | h :: hs =>
    match fate h with
    | .tabError => collect_batch fate d hs
    | .scriptError => collect_batch fate { d with current := h } hs
    | .readyClose ok => collect_batch fate (closeIfMany { d with current := h } ok) hs
    | .lateClose ok => collect_batch fate (closeIfMany { d with current := h } ok) hs
    | .lateSwitchFail => collect_batch fate d hs

/-- The batch loop of `_fetch_urls_with_browser` restricted to its
effect on the window state, tracking the largest number of
simultaneously open windows seen so far.  Within a batch the window
count only grows during dispatch and only shrinks during collection, so
sampling it after the dispatch and after the collection covers every
intermediate point. -/
def tabRunLoop (fate : Nat → TabFate) (past : Nat → Bool) (n : Nat)
    (k : Nat) (d : Driver) (maxSeen : Nat) : List String → Driver × Nat
  | [] => (d, maxSeen)
  | u :: us =>
    if past k then (d, maxSeen)
    else if _h : n = 0 then (d, maxSeen)
    else
      let batch := (u :: us).take n
      let disp := dispatch_batch d batch
      let max1 := max maxSeen disp.1.tabs.length
      let d2 := collect_batch fate disp.1 disp.2
      tabRunLoop fate past n (k + 1) d2 (max max1 d2.tabs.length) ((u :: us).drop n)
termination_by urls => urls.length
decreasing_by
  simp only [List.length_drop, List.length_cons]
  omega

/-- `TorBrowserDriver(...)` starts with a single open window. -/
def initialDriver : Driver := { tabs := [0], current := 0, nextId := 1 }

/-- A whole `_fetch_urls_with_browser` run at the window level: start
from the fresh driver and run the batch loop; the second component is
the largest number of simultaneously open windows over the run. -/
def fetchTabRun (fate : Nat → TabFate) (past : Nat → Bool) (n : Nat)
    (urls : List String) : Driver × Nat :=
  tabRunLoop fate past n 0 initialDriver initialDriver.tabs.length urls

/-! ### Concrete fixtures used by witnesses and counterexamples -/

/-- The state at server start: no Tor process, no results, flag clear. -/
def initialState : ServerState :=
  { torProcess := false, torStartTime := none, lastSearchResults := [], fetchPagesCalled := false }

/-- A backend fetch oracle returning no per-URL entries. -/
def noFetch : List String → List (String × Outcome) := fun _ => []

/-- A `json.loads` oracle that always fails to produce a text field. -/
def noJson : String → Option String := fun _ => none

/-- A provider returning no hits for every query. -/
def emptyProvider : String → Except String (List RawHit) := fun _ => .ok []

/-- A stored search result used in concrete states. -/
def oneResult : SearchResult := { index := 1, title := "t", url := "u", snippet := "s" }

/-- The state right after a successful one-hit search at time 0. -/
def searchedState : ServerState :=
  { torProcess := true, torStartTime := some 0, lastSearchResults := [oneResult],
    fetchPagesCalled := false }

/-- A searched state whose Tor session has been torn down again (as left
behind by an interleaved `fetch_specific_page`). -/
def stoppedSearchedState : ServerState :=
  { torProcess := false, torStartTime := none, lastSearchResults := [oneResult],
    fetchPagesCalled := false }

/-- The state right after a successful search all of whose queries
yielded no hits. -/
def emptySearchedState : ServerState :=
  { torProcess := true, torStartTime := some 0, lastSearchResults := [],
    fetchPagesCalled := false }

/-! ### Helper lemmas -/

/-- `_kill_tor` always leaves no process handle behind. -/
theorem kill_tor_not_running (s : ServerState) : (kill_tor s).torProcess = false := by
  unfold kill_tor
  split
  · rfl
  · next h => simpa using h

/-- `_kill_tor` changes neither the stored results nor the fetched flag. -/
theorem kill_tor_keeps_results (s : ServerState) :
    (kill_tor s).lastSearchResults = s.lastSearchResults ∧
      (kill_tor s).fetchPagesCalled = s.fetchPagesCalled := by
  unfold kill_tor
  split <;> exact ⟨rfl, rfl⟩

/-- When `_check_tor_timeout` answers `True` it has not touched the state. -/
theorem check_tor_timeout_true {keepalive now : Nat} {st : ServerState}
    (h : (check_tor_timeout keepalive now st).1 = true) :
    check_tor_timeout keepalive now st = (true, st) := by
  unfold check_tor_timeout at h ⊢
  cases hs : st.torStartTime with
  | none => simp [hs] at h
  | some start =>
    simp only [hs] at h ⊢
    by_cases hp : st.torProcess = false
    · simp [hp] at h
    · simp only [if_neg hp] at h ⊢
      by_cases ht : now - start > keepalive
      · simp [ht] at h
      · simp [ht]

/-- The index-validation loop of `fetch_pages` passes exactly when every
requested index is valid. -/
theorem firstInvalid_eq_none_iff (valid : List Int) (indexes : List Int) :
    firstInvalid valid indexes = none ↔ ∀ i ∈ indexes, i ∈ valid := by
  induction indexes with
  | nil => simp [firstInvalid]
  | cons i is ih =>
    by_cases hi : i ∈ valid
    · simp [firstInvalid, hi, ih]
    · simp [firstInvalid, hi]

/-- With no requested indexes no URLs are resolved. -/
theorem urls_to_fetch_nil (results : List SearchResult) :
    urls_to_fetch [] results = [] := by
  simp [urls_to_fetch]

/-- A requested index that is valid resolves to at least one URL. -/
theorem urls_to_fetch_ne_nil {indexes : List Int} {results : List SearchResult} {i : Int}
    (hi : i ∈ indexes) (hv : i ∈ validIndexes results) :
    urls_to_fetch indexes results ≠ [] := by
  simp only [validIndexes, List.mem_dedup, List.mem_map] at hv
  obtain ⟨item, hitem, hidx⟩ := hv
  intro hcontra
  have hmem : item ∈ results.filter (fun it => decide (it.index ∈ indexes)) :=
    List.mem_filter.mpr ⟨hitem, by simp [hidx, hi]⟩
  have : item.url ∈ urls_to_fetch indexes results := List.mem_map_of_mem _ hmem
  rw [hcontra] at this
  exact absurd this (List.not_mem_nil _)

/-- `urls_to_fetch` only looks at the requested indexes as a set. -/
theorem urls_to_fetch_congr {indexes indexes' : List Int} (results : List SearchResult)
    (h : ∀ j : Int, j ∈ indexes ↔ j ∈ indexes') :
    urls_to_fetch indexes results = urls_to_fetch indexes' results := by
  unfold urls_to_fetch
  congr 1
  apply List.filter_congr
  intro item _
  exact decide_eq_decide.mpr (h item.index)

/-- A successful `get_sources` call fully determines the new global
state: Tor running with the given start time, the flat result list of
the query loop stored, and `_fetch_pages_called` cleared. -/
theorem get_sources_ok_state (provider : String → Except String (List RawHit))
    (now : Nat) (queries : List String) (st : ServerState)
    (h : ∃ o, (get_sources provider none now queries st).2 = .ok o) :
    (get_sources provider none now queries st).1 =
      ⟨true, some now, (runQueries provider queries [] 1).1, false⟩ := by
  obtain ⟨o, h⟩ := h
  by_cases h0 : queries.length = 0
  · simp [get_sources, h0] at h
  by_cases h3 : queries.length > 3
  · simp [get_sources, h0, h3] at h
  cases hrun : (runQueries provider queries [] 1).2 with
  | error e => simp [get_sources, h0, h3, hrun] at h
  | ok groups => simp [get_sources, h0, h3, hrun]

/-- Claim C7: a search call with an empty query list or with more than 3
queries raises a `ValueError` before any side effect: the returned state
is the input state, so the Tor session is not restarted and the stored
results, generation and fetched-once flag are unchanged. -/
theorem claim_C7_search_validation_no_side_effect
    (provider : String → Except String (List RawHit)) (startResult : Option String)
    (now : Nat) (queries : List String) (st : ServerState)
    (h : queries = [] ∨ queries.length > 3) :
    ∃ msg, get_sources provider startResult now queries st =
      (st, .error (.valueError msg)) := by
  rcases h with h | h
  · exact ⟨"At least one query is required.", by simp [get_sources, h]⟩
  · refine ⟨"Maximum of 3 queries allowed.", ?_⟩
    have h0 : ¬ queries.length = 0 := by omega
    simp [get_sources, h0, h]

/-- Witness for C7 at the empty query list. -/
theorem claim_C7_search_validation_no_side_effect_witness :
    ∃ msg, get_sources emptyProvider none 0 [] initialState =
      (initialState, .error (.valueError msg)) :=
  claim_C7_search_validation_no_side_effect emptyProvider none 0 [] initialState (Or.inl rfl)

/-- Claim C9: a successful search whose stored result set is empty
leaves every later `fetch_pages` call failing with the no-prior-search
error, exactly as if no search had happened, and without touching the
state. -/
theorem claim_C9_zero_result_generation_not_fetch_eligible
    (provider : String → Except String (List RawHit)) (now : Nat)
    (queries : List String) (st : ServerState)
    (_hsearch : ∃ o, (get_sources provider none now queries st).2 = .ok o)
    (hempty : (get_sources provider none now queries st).1.lastSearchResults = []) :
    ∀ (fetchUrls : List String → List (String × Outcome))
      (jsonText : String → Option String) (keepalive now2 : Nat) (indexes : List Int),
      fetch_pages fetchUrls jsonText keepalive now2 indexes
          (get_sources provider none now queries st).1 =
        ((get_sources provider none now queries st).1, .error (.runtimeError noSearchMsg)) ∧
      (∀ st' : ServerState, st'.lastSearchResults = [] →
        (fetch_pages fetchUrls jsonText keepalive now2 indexes st').2 =
          .error (.runtimeError noSearchMsg)) := by
  intro fetchUrls jsonText keepalive now2 indexes
  constructor
  · simp [fetch_pages, hempty]
  · intro st' hst'
    simp [fetch_pages, hst']

/-- Witness for C9: a search over one query with no provider hits. -/
theorem claim_C9_zero_result_generation_not_fetch_eligible_witness :
    fetch_pages noFetch noJson 120 5 [1]
        (get_sources emptyProvider none 0 ["a"] initialState).1 =
      ((get_sources emptyProvider none 0 ["a"] initialState).1,
       .error (.runtimeError noSearchMsg)) :=
  (claim_C9_zero_result_generation_not_fetch_eligible emptyProvider 0 ["a"] initialState
    ⟨_, rfl⟩ rfl noFetch noJson 120 5 [1]).1

/-- Claim C10 (with its impossible parenthetical case dropped: duplicate
valid indexes always resolve to at least one URL): a `fetch_pages` call
with an empty index list fails with a `ValueError` raised before
`_fetch_pages_called` is set and without changing the state, so the same
generation can still be fetched by a later call with valid indexes; and
the resolved URL list depends on the requested indexes only as a set, so
duplicate indexes resolve to each URL at most once. -/
theorem claim_C10_empty_indexes_keep_generation_fetch_eligible
    (fetchUrls : List String → List (String × Outcome))
    (jsonText : String → Option String) (keepalive now : Nat) (st : ServerState)
    (hres : st.lastSearchResults ≠ []) (hflag : st.fetchPagesCalled = false)
    (hchk : (check_tor_timeout keepalive now st).1 = true) :
    fetch_pages fetchUrls jsonText keepalive now [] st =
      (st, .error (.valueError noUrlsMsg)) ∧
    (∀ indexes : List Int, indexes ≠ [] → indexes.length ≤ 5 →
      (∀ i ∈ indexes, i ∈ validIndexes st.lastSearchResults) →
      ∃ out, (fetch_pages fetchUrls jsonText keepalive now indexes st).2 = .ok out) ∧
    (∀ indexes indexes' : List Int, (∀ j : Int, j ∈ indexes ↔ j ∈ indexes') →
      urls_to_fetch indexes st.lastSearchResults =
        urls_to_fetch indexes' st.lastSearchResults) := by
  have hchkeq := check_tor_timeout_true hchk
  refine ⟨?_, ?_, ?_⟩
  · simp [fetch_pages, hres, hflag, hchkeq, firstInvalid, urls_to_fetch_nil]
  · intro indexes hne hlen hvalid
    have hfi : firstInvalid (validIndexes st.lastSearchResults) indexes = none :=
      (firstInvalid_eq_none_iff _ _).mpr hvalid
    obtain ⟨i, hi⟩ := List.exists_mem_of_ne_nil indexes hne
    have hurls := urls_to_fetch_ne_nil hi (hvalid i hi)
    have hlen' : ¬ indexes.length > 5 := by omega
    have hok : (fetch_pages fetchUrls jsonText keepalive now indexes st).2 =
        .ok (formatFetchOutput jsonText indexes st.lastSearchResults
          (fetchUrls (urls_to_fetch indexes st.lastSearchResults))) := by
      simp [fetch_pages, hres, hflag, hchkeq, hlen', hfi, hurls]
    exact ⟨_, hok⟩
  · intro indexes indexes' h
    exact urls_to_fetch_congr st.lastSearchResults h

/-- Witness for C10 on the concrete one-result searched state. -/
theorem claim_C10_empty_indexes_keep_generation_fetch_eligible_witness :
    fetch_pages noFetch noJson 120 5 [] searchedState =
      (searchedState, .error (.valueError noUrlsMsg)) :=
  (claim_C10_empty_indexes_keep_generation_fetch_eligible noFetch noJson 120 5 searchedState
    (by decide) rfl (by decide)).1

/-- `_check_tor_timeout` either leaves the state alone or kills Tor. -/
theorem check_tor_timeout_snd (keepalive now : Nat) (st : ServerState) :
    (check_tor_timeout keepalive now st).2 = st ∨
      (check_tor_timeout keepalive now st).2 = kill_tor st := by
  unfold check_tor_timeout
  cases hs : st.torStartTime with
  | none => exact Or.inl rfl
  | some start =>
    by_cases hp : st.torProcess = false
    · simp [hp]
    · by_cases ht : now - start > keepalive
      · simp [hp, ht]
      · simp [hp, ht]

/-- Claim C6: `_check_tor_timeout` returns `False` when no session is
active (leaving the state alone) or when the elapsed time strictly
exceeds the keepalive period (killing Tor), and returns `True` leaving
the session running otherwise; and no other operation reaps an idle
session — `get_sources` and `fetch_specific_page` behave identically
whatever the recorded session start time is. -/
theorem claim_C6_check_timeout_behaviour (keepalive now : Nat) (st : ServerState) :
    (st.torStartTime = none ∨ st.torProcess = false →
      check_tor_timeout keepalive now st = (false, st)) ∧
    (∀ start, st.torStartTime = some start → st.torProcess = true →
      now - start > keepalive →
      check_tor_timeout keepalive now st = (false, kill_tor st) ∧
        (kill_tor st).torProcess = false) ∧
    (∀ start, st.torStartTime = some start → st.torProcess = true →
      now - start ≤ keepalive →
      check_tor_timeout keepalive now st = (true, st) ∧ st.torProcess = true) ∧
    (∀ (provider : String → Except String (List RawHit)) (startResult : Option String)
      (n2 : Nat) (queries : List String) (t t' : Option Nat),
      ((get_sources provider startResult n2 queries { st with torStartTime := t }).1.torProcess,
        (get_sources provider startResult n2 queries { st with torStartTime := t }).2) =
      ((get_sources provider startResult n2 queries { st with torStartTime := t' }).1.torProcess,
        (get_sources provider startResult n2 queries { st with torStartTime := t' }).2)) ∧
    (∀ (fetchUrls : List String → List (String × Outcome))
      (jsonText : String → Option String) (startResult : Option String)
      (n2 : Nat) (url : String) (t t' : Option Nat),
      ((fetch_specific_page fetchUrls jsonText startResult n2 url
          { st with torStartTime := t }).1.torProcess,
        (fetch_specific_page fetchUrls jsonText startResult n2 url
          { st with torStartTime := t }).2) =
      ((fetch_specific_page fetchUrls jsonText startResult n2 url
          { st with torStartTime := t' }).1.torProcess,
        (fetch_specific_page fetchUrls jsonText startResult n2 url
          { st with torStartTime := t' }).2)) := by
  refine ⟨?_, ?_, ?_, ?_, ?_⟩
  · rintro (h | h)
    · simp [check_tor_timeout, h]
    · unfold check_tor_timeout
      cases hs : st.torStartTime with
      | none => rfl
      | some start => simp [h]
  · intro start hs hp ht
    refine ⟨?_, kill_tor_not_running st⟩
    unfold check_tor_timeout
    simp [hs, hp, ht]
  · intro start hs hp ht
    have ht' : ¬ now - start > keepalive := by omega
    refine ⟨?_, hp⟩
    unfold check_tor_timeout
    simp [hs, hp, ht']
  · intro provider startResult n2 queries t t'
    unfold get_sources
    by_cases h0 : queries.length = 0
    · simp [h0]
    by_cases h3 : queries.length > 3
    · simp [h0, h3]
    cases startResult with
    | some e => by_cases hp : st.torProcess <;> simp [kill_tor, hp, h0, h3]
    | none =>
      cases hrun : (runQueries provider queries [] 1).2 with
      | error e2 => by_cases hp : st.torProcess <;> simp [kill_tor, hp, h0, h3, hrun]
      | ok groups => by_cases hp : st.torProcess <;> simp [kill_tor, hp, h0, h3, hrun]
  · intro fetchUrls jsonText startResult n2 url t t'
    unfold fetch_specific_page
    cases startResult with
    | some e => by_cases hp : st.torProcess <;> simp [kill_tor, hp]
    | none =>
      cases hl : (fetchUrls [url]).lookup url with
      | none => by_cases hp : st.torProcess <;> simp [kill_tor, hp, hl]
      | some o =>
        cases o with
        | content s =>
          cases hj : jsonText s <;> by_cases hp : st.torProcess <;>
            simp [kill_tor, hp, hl, hj]
        | err kind msg => by_cases hp : st.torProcess <;> simp [kill_tor, hp, hl]

/-- Witness for C6: an expired session (elapsed 200 > keepalive 120) is
reaped by the timeout check. -/
theorem claim_C6_check_timeout_behaviour_witness :
    check_tor_timeout 120 200 searchedState = (false, kill_tor searchedState) ∧
      (kill_tor searchedState).torProcess = false :=
  (claim_C6_check_timeout_behaviour 120 200 searchedState).2.1 0 rfl rfl (by decide)

/-- Claim C2: after any operation the Tor process is not left running
except while a successful search's generation is still awaiting its
fetch call.  Concretely: `fetch_specific_page` always ends with Tor
down; a `fetch_pages` call that reaches its fetch phase (returns `ok`)
ends with Tor down; a search failing with a `RuntimeError` (Tor start or
provider failure — validation failures are `ValueError`s raised before
any side effect) ends with Tor down; and every operation preserves the
state predicate "if Tor is running then the current generation has not
consumed its fetch", which is exactly the awaiting-a-fetch exception. -/
theorem claim_C2_session_torn_down_on_every_exit
    : (∀ (fetchUrls : List String → List (String × Outcome))
        (jsonText : String → Option String) (startResult : Option String)
        (now : Nat) (url : String) (st : ServerState),
        (fetch_specific_page fetchUrls jsonText startResult now url st).1.torProcess = false) ∧
      (∀ (fetchUrls : List String → List (String × Outcome))
        (jsonText : String → Option String) (keepalive now : Nat)
        (indexes : List Int) (st : ServerState),
        (∃ out, (fetch_pages fetchUrls jsonText keepalive now indexes st).2 = .ok out) →
        (fetch_pages fetchUrls jsonText keepalive now indexes st).1.torProcess = false) ∧
      (∀ (provider : String → Except String (List RawHit)) (startResult : Option String)
        (now : Nat) (queries : List String) (st : ServerState) (e : String),
        (get_sources provider startResult now queries st).2 = .error (.runtimeError e) →
        (get_sources provider startResult now queries st).1.torProcess = false) ∧
      (∀ (provider : String → Except String (List RawHit)) (startResult : Option String)
        (now : Nat) (queries : List String) (st : ServerState),
        (st.torProcess = true → st.fetchPagesCalled = false) →
        ((get_sources provider startResult now queries st).1.torProcess = true →
          (get_sources provider startResult now queries st).1.fetchPagesCalled = false)) ∧
      (∀ (fetchUrls : List String → List (String × Outcome))
        (jsonText : String → Option String) (keepalive now : Nat)
        (indexes : List Int) (st : ServerState),
        (st.torProcess = true → st.fetchPagesCalled = false) →
        ((fetch_pages fetchUrls jsonText keepalive now indexes st).1.torProcess = true →
          (fetch_pages fetchUrls jsonText keepalive now indexes st).1.fetchPagesCalled = false)) := by
  have hfsp : ∀ (fetchUrls : List String → List (String × Outcome))
      (jsonText : String → Option String) (startResult : Option String)
      (now : Nat) (url : String) (st : ServerState),
      (fetch_specific_page fetchUrls jsonText startResult now url st).1.torProcess = false := by
    intro fetchUrls jsonText startResult now url st
    cases startResult with
    | some e =>
      simp only [fetch_specific_page]
      exact kill_tor_not_running _
    | none =>
      simp only [fetch_specific_page]
      cases hl : (fetchUrls [url]).lookup url with
      | none =>
        simp only [hl]
        exact kill_tor_not_running _
      | some o =>
        cases o with
        | content s =>
          simp only [hl]
          exact kill_tor_not_running _
        | err kind msg =>
          simp only [hl]
          exact kill_tor_not_running _
  have hfp_ok : ∀ (fetchUrls : List String → List (String × Outcome))
      (jsonText : String → Option String) (keepalive now : Nat)
      (indexes : List Int) (st : ServerState),
      (∃ out, (fetch_pages fetchUrls jsonText keepalive now indexes st).2 = .ok out) →
      (fetch_pages fetchUrls jsonText keepalive now indexes st).1.torProcess = false := by
    intro fetchUrls jsonText keepalive now indexes st h
    obtain ⟨out, hout⟩ := h
    by_cases h1 : st.lastSearchResults = []
    · simp [fetch_pages, h1] at hout
    by_cases h2 : st.fetchPagesCalled
    · simp [fetch_pages, h1, h2] at hout
    by_cases hc : (check_tor_timeout keepalive now st).1 = false
    · simp [fetch_pages, h1, h2, hc] at hout
    have hchkeq := check_tor_timeout_true (by simpa using hc)
    by_cases h5 : indexes.length > 5
    · simp [fetch_pages, h1, h2, hc, h5] at hout
    cases hfi : firstInvalid (validIndexes st.lastSearchResults) indexes with
    | some i => simp [fetch_pages, h1, h2, hc, h5, hfi, hchkeq] at hout
    | none =>
      by_cases hu : urls_to_fetch indexes st.lastSearchResults = []
      · simp [fetch_pages, h1, h2, hc, h5, hfi, hu, hchkeq] at hout
      · have heq : (fetch_pages fetchUrls jsonText keepalive now indexes st).1 =
            kill_tor { st with fetchPagesCalled := true } := by
          simp [fetch_pages, h1, h2, hc, h5, hfi, hu, hchkeq]
        rw [heq]
        exact kill_tor_not_running _
  have hgs_err : ∀ (provider : String → Except String (List RawHit))
      (startResult : Option String) (now : Nat) (queries : List String)
      (st : ServerState) (e : String),
      (get_sources provider startResult now queries st).2 = .error (.runtimeError e) →
      (get_sources provider startResult now queries st).1.torProcess = false := by
    intro provider startResult now queries st e h
    by_cases h0 : queries.length = 0
    · simp [get_sources, h0] at h
    by_cases h3 : queries.length > 3
    · simp [get_sources, h0, h3] at h
    cases startResult with
    | some msg => simpa [get_sources, h0, h3] using kill_tor_not_running _
    | none =>
      cases hrun : (runQueries provider queries [] 1).2 with
      | error e2 => simpa [get_sources, h0, h3, hrun] using kill_tor_not_running _
      | ok groups => simp [get_sources, h0, h3, hrun] at h
  refine ⟨hfsp, hfp_ok, hgs_err, ?_, ?_⟩
  · intro provider startResult now queries st hinv
    by_cases h0 : queries.length = 0
    · simpa [get_sources, h0] using hinv
    by_cases h3 : queries.length > 3
    · simpa [get_sources, h0, h3] using hinv
    cases startResult with
    | some msg =>
      have hdown := hgs_err provider (some msg) now queries st msg
        (by simp [get_sources, h0, h3])
      simp [hdown]
    | none =>
      cases hrun : (runQueries provider queries [] 1).2 with
      | error e2 =>
        have hdown := hgs_err provider none now queries st e2
          (by simp [get_sources, h0, h3, hrun])
        simp [hdown]
      | ok groups =>
        intro _
        simp [get_sources, h0, h3, hrun]
  · intro fetchUrls jsonText keepalive now indexes st hinv
    by_cases h1 : st.lastSearchResults = []
    · simpa [fetch_pages, h1] using hinv
    by_cases h2 : st.fetchPagesCalled
    · simpa [fetch_pages, h1, h2] using hinv
    by_cases hc : (check_tor_timeout keepalive now st).1 = false
    · have hpost : (fetch_pages fetchUrls jsonText keepalive now indexes st).1 =
          (check_tor_timeout keepalive now st).2 := by
        simp [fetch_pages, h1, h2, hc]
      rw [hpost]
      rcases check_tor_timeout_snd keepalive now st with hsnd | hsnd
      · rw [hsnd]; exact hinv
      · rw [hsnd]; simp [kill_tor_not_running]
    have hchkeq := check_tor_timeout_true (by simpa using hc)
    by_cases h5 : indexes.length > 5
    · simp [fetch_pages, h1, h2, hc, h5, hchkeq]
    cases hfi : firstInvalid (validIndexes st.lastSearchResults) indexes with
    | some i =>
      simp [fetch_pages, h1, h2, hc, h5, hfi, hchkeq]
    | none =>
      by_cases hu : urls_to_fetch indexes st.lastSearchResults = []
      · simp [fetch_pages, h1, h2, hc, h5, hfi, hu, hchkeq]
      · have hpost : (fetch_pages fetchUrls jsonText keepalive now indexes st).1 =
            kill_tor { st with fetchPagesCalled := true } := by
          simp [fetch_pages, h1, h2, hc, h5, hfi, hu, hchkeq]
        rw [hpost]
        simp [kill_tor_not_running]

/-- Witness for C2: a Tor-start failure during `fetch_specific_page` and
a search failing at Tor start both end with the session down. -/
theorem claim_C2_session_torn_down_on_every_exit_witness :
    (fetch_specific_page noFetch noJson (some "boom") 0 "u" searchedState).1.torProcess = false ∧
      (get_sources emptyProvider (some "boom") 0 ["a"] searchedState).1.torProcess = false :=
  ⟨claim_C2_session_torn_down_on_every_exit.1 noFetch noJson (some "boom") 0 "u" searchedState,
   claim_C2_session_torn_down_on_every_exit.2.2.1 emptyProvider (some "boom") 0 ["a"]
     searchedState "boom" rfl⟩

/-- Claim C1: after a successful search with a non-empty result set, a
first valid `fetch_pages` call is accepted (whatever its page fetches
return), leaving the fetched-once flag set; from that state any second
`fetch_pages` call — any arguments, any time — fails with the
already-fetched error; and any later successful search resets the
fetched-once flag, making the new generation fetch-eligible again. -/
theorem claim_C1_fetch_once_per_generation
    (provider : String → Except String (List RawHit)) (now : Nat)
    (queries : List String) (st : ServerState)
    (fetchUrls : List String → List (String × Outcome)) (jsonText : String → Option String)
    (keepalive now2 : Nat) (indexes : List Int)
    (hsearch : ∃ o, (get_sources provider none now queries st).2 = .ok o)
    (hne : (get_sources provider none now queries st).1.lastSearchResults ≠ [])
    (htime : now2 - now ≤ keepalive)
    (hlen : indexes.length ≤ 5) (hidx : indexes ≠ [])
    (hvalid : ∀ i ∈ indexes,
      i ∈ validIndexes (get_sources provider none now queries st).1.lastSearchResults) :
    (fetch_pages fetchUrls jsonText keepalive now2 indexes
        (get_sources provider none now queries st).1).1 =
      ⟨false, none, (get_sources provider none now queries st).1.lastSearchResults, true⟩ ∧
    (∃ out2, (fetch_pages fetchUrls jsonText keepalive now2 indexes
        (get_sources provider none now queries st).1).2 = .ok out2) ∧
    (∀ (fetchUrls2 : List String → List (String × Outcome))
      (jsonText2 : String → Option String) (keepalive2 now3 : Nat) (indexes2 : List Int),
      fetch_pages fetchUrls2 jsonText2 keepalive2 now3 indexes2
          ⟨false, none, (get_sources provider none now queries st).1.lastSearchResults, true⟩ =
        (⟨false, none, (get_sources provider none now queries st).1.lastSearchResults, true⟩,
         .error (.runtimeError alreadyFetchedMsg))) ∧
    (∀ (provider2 : String → Except String (List RawHit)) (now4 : Nat) (queries2 : List String),
      (∃ o2, (get_sources provider2 none now4 queries2
          ⟨false, none,
            (get_sources provider none now queries st).1.lastSearchResults, true⟩).2 = .ok o2) →
      (get_sources provider2 none now4 queries2
          ⟨false, none,
            (get_sources provider none now queries st).1.lastSearchResults, true⟩).1.fetchPagesCalled
        = false) := by
  have hst := get_sources_ok_state provider now queries st hsearch
  rw [hst] at hne hvalid ⊢
  have hne' : (runQueries provider queries [] 1).1 ≠ [] := by simpa using hne
  have hvalid' : ∀ i ∈ indexes, i ∈ validIndexes (runQueries provider queries [] 1).1 := by
    simpa using hvalid
  have hchk : check_tor_timeout keepalive now2
      (⟨true, some now, (runQueries provider queries [] 1).1, false⟩ : ServerState) =
      (true, ⟨true, some now, (runQueries provider queries [] 1).1, false⟩) := by
    have hgt : ¬ now2 - now > keepalive := by omega
    simp [check_tor_timeout, hgt]
  obtain ⟨i, hi⟩ := List.exists_mem_of_ne_nil indexes hidx
  have hfi : firstInvalid (validIndexes (runQueries provider queries [] 1).1) indexes = none :=
    (firstInvalid_eq_none_iff _ _).mpr hvalid'
  have hurls : urls_to_fetch indexes (runQueries provider queries [] 1).1 ≠ [] :=
    urls_to_fetch_ne_nil hi (hvalid' i hi)
  have h5 : ¬ indexes.length > 5 := by omega
  have hmain : fetch_pages fetchUrls jsonText keepalive now2 indexes
      (⟨true, some now, (runQueries provider queries [] 1).1, false⟩ : ServerState) =
      (⟨false, none, (runQueries provider queries [] 1).1, true⟩,
       .ok (formatFetchOutput jsonText indexes (runQueries provider queries [] 1).1
         (fetchUrls (urls_to_fetch indexes (runQueries provider queries [] 1).1)))) := by
    simp [fetch_pages, hne', hchk, h5, hfi, hurls, kill_tor]
  refine ⟨?_, ?_, ?_, ?_⟩
  · rw [hmain]
  · exact ⟨_, by rw [hmain]⟩
  · intro fetchUrls2 jsonText2 keepalive2 now3 indexes2
    simp [fetch_pages, hne']
  · intro provider2 now4 queries2 h2
    rw [get_sources_ok_state provider2 now4 queries2 _ h2]

/-- A provider with a single one-hit query, used as a concrete witness. -/
def oneProvider : String → Except String (List RawHit) :=
  fun _ => .ok [{ title := "t", href := "u", body := "s" }]

/-- Witness for C1: a one-hit search at time 0, fetched at time 10 with
index 1, then a second fetch attempt at time 99. -/
theorem claim_C1_fetch_once_per_generation_witness :
    (fetch_pages noFetch noJson 120 10 [1]
        (get_sources oneProvider none 0 ["a"] initialState).1).1 =
      ⟨false, none, (get_sources oneProvider none 0 ["a"] initialState).1.lastSearchResults, true⟩ ∧
    fetch_pages noFetch noJson 7 99 [2]
        ⟨false, none, (get_sources oneProvider none 0 ["a"] initialState).1.lastSearchResults, true⟩ =
      (⟨false, none, (get_sources oneProvider none 0 ["a"] initialState).1.lastSearchResults, true⟩,
       .error (.runtimeError alreadyFetchedMsg)) :=
  ⟨(claim_C1_fetch_once_per_generation oneProvider 0 ["a"] initialState noFetch noJson
      120 10 [1] ⟨_, rfl⟩ (by decide) (by decide) (by decide) (by decide) (by decide)).1,
   (claim_C1_fetch_once_per_generation oneProvider 0 ["a"] initialState noFetch noJson
      120 10 [1] ⟨_, rfl⟩ (by decide) (by decide) (by decide) (by decide)
      (by decide)).2.2.1 noFetch noJson 7 99 [2]⟩

/-- Claim C5 (amended): `fetch_pages` raises exactly under the following
conditions, checked in source order — empty stored result set;
already-fetched flag; `_check_tor_timeout` answering `False` (which
happens when no session is running OR the idle timeout is exceeded, the
first conjunct making this explicit); more than five requested indexes,
the message carrying the requested count; a requested index absent from
the stored result set, the message listing the sorted valid indexes; and
an index list resolving to no URLs (in particular an empty index list) —
and otherwise succeeds. -/
theorem claim_C5_fetch_pages_error_conditions
    (fetchUrls : List String → List (String × Outcome)) (jsonText : String → Option String)
    (keepalive now : Nat) (indexes : List Int) (st : ServerState) :
    ((check_tor_timeout keepalive now st).1 = false ↔
      st.torStartTime = none ∨ st.torProcess = false ∨
        ∃ s, st.torStartTime = some s ∧ now - s > keepalive) ∧
    (firstInvalid (validIndexes st.lastSearchResults) indexes = none ↔
      ∀ i ∈ indexes, i ∈ validIndexes st.lastSearchResults) ∧
    (st.lastSearchResults = [] →
      fetch_pages fetchUrls jsonText keepalive now indexes st =
        (st, .error (.runtimeError noSearchMsg))) ∧
    (st.lastSearchResults ≠ [] → st.fetchPagesCalled = true →
      fetch_pages fetchUrls jsonText keepalive now indexes st =
        (st, .error (.runtimeError alreadyFetchedMsg))) ∧
    (st.lastSearchResults ≠ [] → st.fetchPagesCalled = false →
      (check_tor_timeout keepalive now st).1 = false →
      fetch_pages fetchUrls jsonText keepalive now indexes st =
        ((check_tor_timeout keepalive now st).2, .error (.runtimeError torTimeoutMsg))) ∧
    (st.lastSearchResults ≠ [] → st.fetchPagesCalled = false →
      (check_tor_timeout keepalive now st).1 = true → indexes.length > 5 →
      fetch_pages fetchUrls jsonText keepalive now indexes st =
        (st, .error (.valueError (tooManyMsg indexes.length)))) ∧
    (st.lastSearchResults ≠ [] → st.fetchPagesCalled = false →
      (check_tor_timeout keepalive now st).1 = true → ¬ indexes.length > 5 →
      ∀ i, firstInvalid (validIndexes st.lastSearchResults) indexes = some i →
      fetch_pages fetchUrls jsonText keepalive now indexes st =
        (st, .error (.valueError (invalidIndexMsg i st.lastSearchResults)))) ∧
    (st.lastSearchResults ≠ [] → st.fetchPagesCalled = false →
      (check_tor_timeout keepalive now st).1 = true → ¬ indexes.length > 5 →
      firstInvalid (validIndexes st.lastSearchResults) indexes = none →
      urls_to_fetch indexes st.lastSearchResults = [] →
      fetch_pages fetchUrls jsonText keepalive now indexes st =
        (st, .error (.valueError noUrlsMsg))) ∧
    (st.lastSearchResults ≠ [] → st.fetchPagesCalled = false →
      (check_tor_timeout keepalive now st).1 = true → ¬ indexes.length > 5 →
      firstInvalid (validIndexes st.lastSearchResults) indexes = none →
      urls_to_fetch indexes st.lastSearchResults ≠ [] →
      fetch_pages fetchUrls jsonText keepalive now indexes st =
        (kill_tor { st with fetchPagesCalled := true },
         .ok (formatFetchOutput jsonText indexes st.lastSearchResults
           (fetchUrls (urls_to_fetch indexes st.lastSearchResults))))) := by
  refine ⟨?_, firstInvalid_eq_none_iff _ _, ?_, ?_, ?_, ?_, ?_, ?_, ?_⟩
  · unfold check_tor_timeout
    cases hs : st.torStartTime with
    | none => simp
    | some start =>
      by_cases hp : st.torProcess = false
      · simp [hp]
      · by_cases ht : now - start > keepalive
        · simp [hp, ht]
        · simp [hp, ht]
  · intro h1
    simp [fetch_pages, h1]
  · intro h1 h2
    simp [fetch_pages, h1, h2]
  · intro h1 h2 hc
    simp [fetch_pages, h1, h2, hc]
  · intro h1 h2 hc h5
    have hchkeq := check_tor_timeout_true hc
    simp [fetch_pages, h1, h2, hc, h5, hchkeq]
  · intro h1 h2 hc h5 i hfi
    have hchkeq := check_tor_timeout_true hc
    simp [fetch_pages, h1, h2, hc, h5, hfi, hchkeq]
  · intro h1 h2 hc h5 hfi hu
    have hchkeq := check_tor_timeout_true hc
    simp [fetch_pages, h1, h2, hc, h5, hfi, hu, hchkeq]
  · intro h1 h2 hc h5 hfi hu
    have hchkeq := check_tor_timeout_true hc
    simp [fetch_pages, h1, h2, hc, h5, hfi, hu, hchkeq]

/-- Witness for C5 on concrete states: no-search error on the initial
state and the too-many-indexes error (count 6 in the message) on the
one-result searched state. -/
theorem claim_C5_fetch_pages_error_conditions_witness :
    fetch_pages noFetch noJson 120 0 [1] initialState =
      (initialState, .error (.runtimeError noSearchMsg)) ∧
    fetch_pages noFetch noJson 120 5 [1, 1, 1, 1, 1, 1] searchedState =
      (searchedState, .error (.valueError (tooManyMsg 6))) :=
  ⟨(claim_C5_fetch_pages_error_conditions noFetch noJson 120 0 [1] initialState).2.2.1 rfl,
   (claim_C5_fetch_pages_error_conditions noFetch noJson 120 5
      [1, 1, 1, 1, 1, 1] searchedState).2.2.2.2.2.1 (by decide) rfl (by decide) (by decide)⟩

/-- Counterexample to C5 as stated: `fetch_pages` raises errors outside
the five listed conditions.  First, on a fresh one-result generation
within the keepalive window, the empty index list raises a `ValueError`
although none of the five conditions holds.  Second, when the session
was merely torn down (by an interleaved `fetch_specific_page`) with no
idle time elapsed, `fetch_pages` raises the timeout-specific error even
though the idle timeout was not exceeded since the search. -/
theorem claim_C5_fetch_pages_error_conditions_cex :
    (fetch_pages noFetch noJson 120 5 [] searchedState =
        (searchedState, .error (.valueError noUrlsMsg)) ∧
      searchedState.lastSearchResults ≠ [] ∧
      searchedState.fetchPagesCalled = false ∧
      (check_tor_timeout 120 5 searchedState).1 = true ∧
      ([] : List Int).length ≤ 5 ∧
      firstInvalid (validIndexes searchedState.lastSearchResults) [] = none) ∧
    (fetch_pages noFetch noJson 120 0 [1] stoppedSearchedState =
        (stoppedSearchedState, .error (.runtimeError torTimeoutMsg)) ∧
      stoppedSearchedState.torProcess = false ∧
      stoppedSearchedState.lastSearchResults ≠ [] ∧
      stoppedSearchedState.fetchPagesCalled = false) := by
  refine ⟨⟨?_, by decide, rfl, by decide, by decide, rfl⟩, ⟨?_, rfl, by decide, rfl⟩⟩
  · rfl
  · rfl

/-! ### Specification-side indexer (for the C4 refinement)

The following definitions follow the words of the specification —
"maintain one seen-URL set across the entire call; a URL already seen is
dropped silently; surviving results receive the next sequential index
starting at 1; snippets are truncated at 125 characters with an
ellipsis" — and are compared with the code-side `get_sources`. -/

/-- Spec-side deduplication: keep the first occurrence of each URL
across the concatenated hit stream, one seen set for the whole call. -/
def specDedup : List RawHit → List String → List RawHit
  | [], _ => []
  | r :: rs, seen =>
    if r.href ∈ seen then specDedup rs seen
    else r :: specDedup rs (r.href :: seen)

/-- The seen-URL set after spec-side deduplication. -/
def specSeen : List RawHit → List String → List String
  | [], seen => seen
  | r :: rs, seen =>
    if r.href ∈ seen then specSeen rs seen
    else specSeen rs (r.href :: seen)

/-- Spec-side record construction: consecutive indexes from `idx`, one
per surviving hit, snippets truncated. -/
def indexFrom (idx : Int) : List RawHit → List SearchResult
  | [] => []
  | r :: rs =>
    { index := idx, title := r.title, url := r.href, snippet := truncSnippet r.body }
      :: indexFrom (idx + 1) rs

/-- Spec-side indexer over the whole concatenated hit stream. -/
def specIndexer (hits : List RawHit) : List SearchResult :=
  indexFrom 1 (specDedup hits [])

/-- The concatenation of the provider's hit lists over the queries,
`none` if any query raises. -/
def providerHits (provider : String → Except String (List RawHit)) :
    List String → Option (List RawHit)
  | [] => some []
  | q :: qs =>
    match provider q with
    | .error _ => none
    | .ok hits => (providerHits provider qs).map (fun rest => hits ++ rest)

/-- The inner loop of `get_sources` computes exactly the spec-side
records, seen set and running index. -/
theorem processQuery_eq (hits : List RawHit) : ∀ (seen : List String) (idx : Int),
    processQuery hits seen idx =
      (indexFrom idx (specDedup hits seen), specSeen hits seen,
        idx + (specDedup hits seen).length) := by
  induction hits with
  | nil => intro seen idx; simp [processQuery, specDedup, specSeen, indexFrom]
  | cons r rs ih =>
    intro seen idx
    by_cases hmem : r.href ∈ seen
    · simp [processQuery, specDedup, specSeen, hmem, ih]
    · have harith : idx + 1 + ((specDedup rs (r.href :: seen)).length : Int) =
          idx + (((specDedup rs (r.href :: seen)).length : Int) + 1) := by ring
      simp [processQuery, specDedup, specSeen, hmem,
        ih (r.href :: seen) (idx + 1), indexFrom, harith]

/-- Spec-side dedup distributes over concatenation of hit lists. -/
theorem specDedup_append (h1 h2 : List RawHit) : ∀ seen : List String,
    specDedup (h1 ++ h2) seen = specDedup h1 seen ++ specDedup h2 (specSeen h1 seen) := by
  induction h1 with
  | nil => intro seen; simp [specDedup, specSeen]
  | cons r rs ih =>
    intro seen
    by_cases hmem : r.href ∈ seen
    · simp [specDedup, specSeen, hmem, ih]
    · simp [specDedup, specSeen, hmem, ih]

/-- Record construction distributes over concatenation, shifting the
running index. -/
theorem indexFrom_append (l1 l2 : List RawHit) : ∀ idx : Int,
    indexFrom idx (l1 ++ l2) = indexFrom idx l1 ++ indexFrom (idx + l1.length) l2 := by
  induction l1 with
  | nil => intro idx; simp [indexFrom]
  | cons r rs ih =>
    intro idx
    have harith : idx + 1 + ((rs.length : Int)) = idx + ((rs.length : Int) + 1) := by ring
    simp [List.cons_append, indexFrom, ih (idx + 1), harith]

/-- The query loop of `get_sources` computes the spec-side indexer over
the concatenated hit stream. -/
theorem runQueries_flat (provider : String → Except String (List RawHit)) :
    ∀ (queries : List String) (seen : List String) (idx : Int) (H : List RawHit),
    providerHits provider queries = some H →
    (runQueries provider queries seen idx).1 = indexFrom idx (specDedup H seen) := by
  intro queries
  induction queries with
  | nil =>
    intro seen idx H hH
    simp only [providerHits, Option.some.injEq] at hH
    subst hH
    simp [runQueries, specDedup, indexFrom]
  | cons q qs ih =>
    intro seen idx H hH
    simp only [providerHits] at hH
    cases hq : provider q with
    | error e => rw [hq] at hH; simp at hH
    | ok hits =>
      rw [hq] at hH
      cases hrest : providerHits provider qs with
      | none => rw [hrest] at hH; simp at hH
      | some H' =>
        rw [hrest] at hH
        simp only [Option.map, Option.some.injEq] at hH
        subst hH
        simp only [runQueries, hq, processQuery_eq]
        rw [ih (specSeen hits seen) (idx + (specDedup hits seen).length) H' hrest]
        rw [specDedup_append, indexFrom_append]

/-- The spec-side indexes are `idx, idx+1, ...` in order. -/
theorem indexFrom_map_index (l : List RawHit) : ∀ idx : Int,
    (indexFrom idx l).map (fun item => item.index) =
      (List.range l.length).map (fun k => idx + Int.ofNat k) := by
  induction l with
  | nil => intro idx; simp [indexFrom]
  | cons r rs ih =>
    intro idx
    rw [List.length_cons, List.range_succ_eq_map]
    simp only [indexFrom, List.map_cons, List.map_map, ih (idx + 1), List.cons.injEq]
    refine ⟨by simp, ?_⟩
    apply List.map_congr_left
    intro k _
    simp only [Function.comp_apply, Int.ofNat_eq_coe, Nat.succ_eq_add_one]
    push_cast
    ring

/-- The spec-side record URLs are the surviving hit URLs. -/
theorem indexFrom_map_url (l : List RawHit) : ∀ idx : Int,
    (indexFrom idx l).map (fun item => item.url) = l.map (fun r => r.href) := by
  induction l with
  | nil => intro idx; simp [indexFrom]
  | cons r rs ih => intro idx; simp [indexFrom, ih (idx + 1)]

/-- Spec-side dedup produces pairwise-distinct URLs, none of them
already seen. -/
theorem specDedup_props (hits : List RawHit) : ∀ seen : List String,
    ((specDedup hits seen).map (fun r => r.href)).Nodup ∧
      ∀ r ∈ specDedup hits seen, r.href ∉ seen := by
  induction hits with
  | nil => intro seen; simp [specDedup]
  | cons r rs ih =>
    intro seen
    by_cases hmem : r.href ∈ seen
    · simp only [specDedup, hmem, ite_true]
      exact ih seen
    · simp only [specDedup, hmem, ite_false, List.map_cons, List.nodup_cons]
      obtain ⟨hnd, hns⟩ := ih (r.href :: seen)
      refine ⟨⟨?_, hnd⟩, ?_⟩
      · intro habs
        obtain ⟨r', hr', heq⟩ := List.mem_map.mp habs
        exact hns r' hr' (heq ▸ List.mem_cons_self _ _)
      · intro r' hr'
        rcases List.mem_cons.mp hr' with h | h
        · exact h ▸ hmem
        · intro habs
          exact hns r' h (List.mem_cons_of_mem _ habs)

/-- Spec-side dedup only keeps hits of the input stream. -/
theorem mem_specDedup {r : RawHit} (hits : List RawHit) : ∀ seen : List String,
    r ∈ specDedup hits seen → r ∈ hits := by
  induction hits with
  | nil => intro seen h; simp [specDedup] at h
  | cons r' rs ih =>
    intro seen h
    by_cases hmem : r'.href ∈ seen
    · simp only [specDedup, hmem, ite_true] at h
      exact List.mem_cons_of_mem _ (ih seen h)
    · simp only [specDedup, hmem, ite_false] at h
      rcases List.mem_cons.mp h with h | h
      · exact h ▸ List.mem_cons_self _ _
      · exact List.mem_cons_of_mem _ (ih (r'.href :: seen) h)

/-- Every spec-side record carries the title, URL and truncated snippet
of one surviving hit. -/
theorem mem_indexFrom {item : SearchResult} (l : List RawHit) : ∀ idx : Int,
    item ∈ indexFrom idx l → ∃ r ∈ l,
      item.title = r.title ∧ item.url = r.href ∧ item.snippet = truncSnippet r.body := by
  induction l with
  | nil => intro idx h; simp [indexFrom] at h
  | cons r rs ih =>
    intro idx h
    rcases List.mem_cons.mp h with h | h
    · exact ⟨r, List.mem_cons_self _ _, by rw [h], by rw [h], by rw [h]⟩
    · obtain ⟨r', hr', hprops⟩ := ih (idx + 1) h
      exact ⟨r', List.mem_cons_of_mem _ hr', hprops⟩

/-- A hit used in the two-query duplicate scenario. -/
def mkHit (u : String) : RawHit := { title := "t", href := u, body := "s" }

/-- Scenario provider: 5 hits per query, queries `"a"` and `"b"`
sharing the two URLs `u1`, `u2`. -/
def scenarioProvider : String → Except String (List RawHit) :=
  fun q =>
    if q = "a" then .ok [mkHit "u1", mkHit "u2", mkHit "u3", mkHit "u4", mkHit "u5"]
    else .ok [mkHit "u1", mkHit "u2", mkHit "u6", mkHit "u7", mkHit "u8"]

/-- The concatenated hit stream of the scenario. -/
def scenarioHits : List RawHit :=
  [mkHit "u1", mkHit "u2", mkHit "u3", mkHit "u4", mkHit "u5",
   mkHit "u1", mkHit "u2", mkHit "u6", mkHit "u7", mkHit "u8"]

/-- Claim C4: a successful search with 1–3 queries stores exactly the
spec-side indexed results of the concatenated provider hits — one
seen-URL set across the whole call with duplicates dropped silently,
sequential indexes starting at 1 across queries, snippets equal to the
provider snippet when at most 125 characters and otherwise its first 125
characters plus an ellipsis — and in the two-query scenario with 5 hits
each and 2 cross-query duplicate URLs exactly 8 results indexed 1..8
come out. -/
theorem claim_C4_one_seen_set_sequential_indexes
    (provider : String → Except String (List RawHit)) (now : Nat)
    (queries : List String) (st : ServerState) (H : List RawHit)
    (_hq1 : 1 ≤ queries.length) (_hq3 : queries.length ≤ 3)
    (hH : providerHits provider queries = some H)
    (hsearch : ∃ o, (get_sources provider none now queries st).2 = .ok o) :
    (get_sources provider none now queries st).1.lastSearchResults = specIndexer H ∧
    (specIndexer H).map (fun item => item.index) =
      (List.range (specDedup H []).length).map (fun k => 1 + Int.ofNat k) ∧
    ((specIndexer H).map (fun item => item.url)).Nodup ∧
    (∀ item ∈ specIndexer H, ∃ r ∈ H,
      item.title = r.title ∧ item.url = r.href ∧
      ((r.body.length ≤ 125 ∧ item.snippet = r.body) ∨
       (125 < r.body.length ∧ item.snippet = r.body.take 125 ++ "..."))) ∧
    ((get_sources scenarioProvider none 0 ["a", "b"] initialState).1.lastSearchResults.map
        (fun item => item.index)) = [1, 2, 3, 4, 5, 6, 7, 8] := by
  refine ⟨?_, ?_, ?_, ?_, by decide⟩
  · rw [get_sources_ok_state provider now queries st hsearch]
    simp only []
    exact runQueries_flat provider queries [] 1 H hH
  · exact indexFrom_map_index (specDedup H []) 1
  · rw [specIndexer, indexFrom_map_url]
    exact (specDedup_props H []).1
  · intro item hitem
    obtain ⟨r, hr, ht, hu, hs⟩ := mem_indexFrom (specDedup H []) 1 hitem
    refine ⟨r, mem_specDedup H [] hr, ht, hu, ?_⟩
    by_cases hlen : r.body.length > 125
    · exact Or.inr ⟨hlen, by rw [hs]; simp [truncSnippet, hlen]⟩
    · exact Or.inl ⟨by omega, by rw [hs]; simp [truncSnippet, hlen]⟩

/-- Witness for C4 at the duplicate scenario. -/
theorem claim_C4_one_seen_set_sequential_indexes_witness :
    (get_sources scenarioProvider none 0 ["a", "b"] initialState).1.lastSearchResults =
      specIndexer scenarioHits ∧
    ((specIndexer scenarioHits).map (fun item => item.url)).Nodup :=
  ⟨(claim_C4_one_seen_set_sequential_indexes scenarioProvider 0 ["a", "b"] initialState
      scenarioHits (by decide) (by decide) rfl ⟨_, rfl⟩).1,
   (claim_C4_one_seen_set_sequential_indexes scenarioProvider 0 ["a", "b"] initialState
      scenarioHits (by decide) (by decide) rfl ⟨_, rfl⟩).2.2.1⟩

/-! ### Lemmas about the batch loop (claim C3) -/

/-- The batches concatenate back to the URL list. -/
theorem chunkList_flatten (n : Nat) (hn : n ≠ 0) :
    ∀ (m : Nat) (urls : List String), urls.length ≤ m →
    (chunkList n urls).flatten = urls := by
  intro m
  induction m with
  | zero =>
    intro urls hlen
    have hnil : urls = [] := List.eq_nil_of_length_eq_zero (by omega)
    subst hnil
    simp [chunkList]
  | succ m ih =>
    intro urls hlen
    cases urls with
    | nil => simp [chunkList]
    | cons u us =>
      rw [chunkList, dif_neg hn, List.flatten_cons,
        ih ((u :: us).drop n) (by simp only [List.length_drop, List.length_cons] at hlen ⊢; omega)]
      exact List.take_append_drop n (u :: us)

/-- Every batch is non-empty and no larger than the bound. -/
theorem chunkList_batch_size (n : Nat) (hn : n ≠ 0) :
    ∀ (m : Nat) (urls : List String), urls.length ≤ m →
    ∀ b ∈ chunkList n urls, b.length ≤ n ∧ b ≠ [] := by
  intro m
  induction m with
  | zero =>
    intro urls hlen b hb
    have hnil : urls = [] := List.eq_nil_of_length_eq_zero (by omega)
    subst hnil
    simp [chunkList] at hb
  | succ m ih =>
    intro urls hlen b hb
    cases urls with
    | nil => simp [chunkList] at hb
    | cons u us =>
      rw [chunkList, dif_neg hn] at hb
      rcases List.mem_cons.mp hb with hb | hb
      · subst hb
        constructor
        · exact List.length_take_le n (u :: us)
        · have : ((u :: us).take n).length = min n (us.length + 1) := by
            simp [List.length_take]
          intro habs
          rw [habs] at this
          simp at this
          omega
      · exact ih ((u :: us).drop n)
          (by simp only [List.length_drop, List.length_cons] at hlen ⊢; omega) b hb

/-- Full characterisation of the batch loop: there is a cut index `j` —
the first batch number at which the deadline was observed expired, or
the batch count if it never was — such that every batch before `j` was
dispatched (via `doBatch`) and every URL from batch `j` on got the
timeout outcome with nothing dispatched. -/
theorem fetchLoop_spec (doBatch : List String → List (String × Outcome))
    (past : Nat → Bool) (n : Nat) (hn : n ≠ 0) :
    ∀ (m : Nat) (urls : List String), urls.length ≤ m → ∀ k : Nat,
    ∃ j, j ≤ (chunkList n urls).length ∧
      (∀ i, i < j → past (k + i) = false) ∧
      (j < (chunkList n urls).length → past (k + j) = true) ∧
      fetchLoop doBatch past n k urls =
        ((((chunkList n urls).take j).map doBatch).flatten ++
           ((chunkList n urls).drop j).flatten.map (fun u => (u, timeoutOutcome)),
         ((chunkList n urls).take j).flatten) := by
  intro m
  induction m with
  | zero =>
    intro urls hlen k
    have hnil : urls = [] := List.eq_nil_of_length_eq_zero (by omega)
    subst hnil
    exact ⟨0, by simp [chunkList], by omega, by simp [chunkList], by simp [chunkList, fetchLoop]⟩
  | succ m ih =>
    intro urls hlen k
    cases urls with
    | nil =>
      exact ⟨0, by simp [chunkList], by omega, by simp [chunkList], by simp [chunkList, fetchLoop]⟩
    | cons u us =>
      have hlen' : ((u :: us).drop n).length ≤ m := by
        simp only [List.length_drop, List.length_cons] at hlen ⊢
        omega
      by_cases hp : past k = true
      · refine ⟨0, Nat.zero_le _, by omega, fun _ => hp, ?_⟩
        simp only [fetchLoop, hp, if_true, List.take_zero, List.drop_zero, List.map_nil,
          List.flatten_nil, List.nil_append]
        rw [chunkList_flatten n hn (m + 1) (u :: us) hlen]
      · have hp' : past k = false := by revert hp; cases past k <;> simp
        obtain ⟨j', hj'le, hj'f, hj't, hj'eq⟩ := ih ((u :: us).drop n) hlen' (k + 1)
        refine ⟨j' + 1, ?_, ?_, ?_, ?_⟩
        · rw [chunkList, dif_neg hn]
          simpa using hj'le
        · intro i hi
          cases i with
          | zero => simpa using hp'
          | succ i' =>
            have harith : k + (i' + 1) = (k + 1) + i' := by omega
            rw [harith]
            exact hj'f i' (by omega)
        · intro hlt
          rw [chunkList, dif_neg hn] at hlt
          simp only [List.length_cons] at hlt
          have harith : k + (j' + 1) = (k + 1) + j' := by omega
          rw [harith]
          exact hj't (by omega)
        · rw [show fetchLoop doBatch past n k (u :: us) =
              (doBatch ((u :: us).take n) ++ (fetchLoop doBatch past n (k + 1) ((u :: us).drop n)).1,
               (u :: us).take n ++ (fetchLoop doBatch past n (k + 1) ((u :: us).drop n)).2) by
            simp [fetchLoop, hp', hn]]
          rw [hj'eq, chunkList, dif_neg hn]
          simp [List.append_assoc]

/-- `List.lookup` skips an association block none of whose keys match. -/
theorem lookup_append_of_not_mem_keys {α : Type} [DecidableEq α] {β : Type}
    (l2 : List (α × β)) (u : α) :
    ∀ l1 : List (α × β), u ∉ l1.map Prod.fst →
    (l1 ++ l2).lookup u = l2.lookup u := by
  intro l1
  induction l1 with
  | nil => intro _; simp
  | cons p l1 ih =>
    intro h
    obtain ⟨a, b⟩ := p
    simp only [List.map_cons, List.mem_cons] at h
    push_neg at h
    have hne : (u == a) = false := by simp [h.1]
    simp [List.lookup, hne, ih h.2]

/-- `List.lookup` on a constant-value association of a member key. -/
theorem lookup_map_const {α : Type} [DecidableEq α] {β : Type}
    (l : List α) (c : β) (u : α) (h : u ∈ l) :
    (l.map (fun v => (v, c))).lookup u = some c := by
  induction l with
  | nil => simp at h
  | cons a l ih =>
    by_cases he : u = a
    · subst he
      simp [List.lookup]
    · have hne : (u == a) = false := by simp [he]
      rcases List.mem_cons.mp h with h | h
      · exact absurd h he
      · simp [List.lookup, hne, ih h]

/-- The Trafilatura phase keeps keys and transforms each value with the
key-dependent outcome action; in particular error outcomes look up
unchanged. -/
theorem extractPhase_lookup (ex : String → String → Option String)
    (l : List (String × Outcome)) (u : String) :
    (extractPhase ex l).lookup u = (l.lookup u).map (extractOutcome ex u) := by
  induction l with
  | nil => simp [extractPhase]
  | cons p l ih =>
    obtain ⟨a, b⟩ := p
    by_cases he : u = a
    · subst he
      simp [extractPhase, List.lookup]
    · have hne : (u == a) = false := by simp [he]
      simp only [extractPhase, List.map_cons, List.lookup, hne]
      exact ih

/-- Keys of the dispatched part of the batch-loop results: if `doBatch`
keys its outcomes by its batch URLs, they are the dispatched URLs. -/
theorem flatten_doBatch_keys (doBatch : List String → List (String × Outcome))
    (hkeys : ∀ b, (doBatch b).map Prod.fst = b) (bs : List (List String)) :
    ((bs.map doBatch).flatten).map Prod.fst = bs.flatten := by
  induction bs with
  | nil => simp
  | cons b bs ih => simp [hkeys b, ih]

/-- Claim C3: the orchestrator partitions the URL list (1–5 URLs) into
consecutive batches of size at most `n` (bound 2 over 5 URLs giving
sizes 2, 2, 1), and once the deadline is observed expired at a batch
boundary — the observations being monotone in time — every URL of that
batch and of all later batches gets the timeout outcome, none of them is
dispatched, and no further batch is processed. -/
theorem claim_C3_batch_partition_and_deadline
    (doBatch : List String → List (String × Outcome)) (past : Nat → Bool)
    (ex : String → String → Option String) (n : Nat) (urls : List String) (j : Nat)
    (hn : n ≠ 0) (_hlen1 : 1 ≤ urls.length) (_hlen5 : urls.length ≤ 5)
    (hnd : urls.Nodup)
    (hkeys : ∀ b, (doBatch b).map Prod.fst = b)
    (_hmono : ∀ i i', i ≤ i' → past i = true → past i' = true)
    (hpast : past j = true) :
    ((chunkList n urls).flatten = urls ∧
      ∀ b ∈ chunkList n urls, b.length ≤ n ∧ b ≠ []) ∧
    (chunkList 2 ["a", "b", "c", "d", "e"]).map List.length = [2, 2, 1] ∧
    ∀ u ∈ ((chunkList n urls).drop j).flatten,
      (fetch_urls_with_browser doBatch past ex n urls).lookup u = some timeoutOutcome ∧
      u ∉ (fetchLoop doBatch past n 0 urls).2 := by
  refine ⟨⟨chunkList_flatten n hn urls.length urls le_rfl,
    chunkList_batch_size n hn urls.length urls le_rfl⟩, by simp [chunkList], ?_⟩
  intro u hu
  obtain ⟨j0, hj0le, hj0f, hj0t, heq⟩ := fetchLoop_spec doBatch past n hn urls.length urls le_rfl 0
  simp only [Nat.zero_add] at hj0f hj0t
  -- the cut point is no later than the expired batch index
  have hj0j : j0 ≤ j := by
    by_contra hlt
    push_neg at hlt
    have := hj0f j hlt
    rw [hpast] at this
    exact absurd this (by simp)
  -- `u` sits in the timed-out suffix of the cut
  have husub : u ∈ ((chunkList n urls).drop j0).flatten := by
    obtain ⟨b, hb, hub⟩ := List.mem_flatten.mp hu
    refine List.mem_flatten.mpr ⟨b, ?_, hub⟩
    have hdd : (chunkList n urls).drop j = ((chunkList n urls).drop j0).drop (j - j0) := by
      rw [List.drop_drop]
      congr 1
      omega
    rw [hdd] at hb
    exact List.drop_subset _ _ hb
  -- the dispatched prefix and the timed-out suffix have disjoint URLs
  have hsplit : ((chunkList n urls).take j0).flatten ++ ((chunkList n urls).drop j0).flatten
      = urls := by
    rw [← List.flatten_append, List.take_append_drop]
    exact chunkList_flatten n hn urls.length urls le_rfl
  have hdisj : u ∉ ((chunkList n urls).take j0).flatten := by
    intro habs
    have hnd' : (((chunkList n urls).take j0).flatten ++
        ((chunkList n urls).drop j0).flatten).Nodup := by rw [hsplit]; exact hnd
    exact absurd husub ((List.nodup_append.mp hnd').2.2 habs)
  constructor
  · unfold fetch_urls_with_browser
    rw [extractPhase_lookup, heq]
    have hkeys' : u ∉ ((((chunkList n urls).take j0).map doBatch).flatten).map Prod.fst := by
      rw [flatten_doBatch_keys doBatch hkeys]
      exact hdisj
    rw [lookup_append_of_not_mem_keys _ u _ hkeys']
    rw [lookup_map_const _ _ u husub]
    rfl
  · rw [heq]
    exact hdisj

/-- Witness for C3: bound 2 over five URLs with the deadline observed
expired from batch 1 on. -/
theorem claim_C3_batch_partition_and_deadline_witness :
    (fetch_urls_with_browser (fun b => b.map (fun v => (v, Outcome.content "h")))
        (fun k => decide (1 ≤ k)) (fun h _ => some h) 2
        ["a", "b", "c", "d", "e"]).lookup "c" = some timeoutOutcome ∧
    "c" ∉ (fetchLoop (fun b => b.map (fun v => (v, Outcome.content "h")))
        (fun k => decide (1 ≤ k)) 2 0 ["a", "b", "c", "d", "e"]).2 :=
  (claim_C3_batch_partition_and_deadline
    (fun b => b.map (fun v => (v, Outcome.content "h"))) (fun k => decide (1 ≤ k))
    (fun h _ => some h) 2 ["a", "b", "c", "d", "e"] 1
    (by decide) (by decide) (by decide) (by decide)
    (fun b => by induction b with
      | nil => rfl
      | cons v vs ihb => simpa using ihb)
    (fun i i' hle hi => by simp at hi ⊢; omega)
    (by decide)).2.2 "c" (by simp [chunkList])

/-! ### Lemmas about the tab-count model (claim C8) -/

/-- The consecutive fresh window handles `s, s+1, ..., s+c-1` allocated
by a dispatch phase. -/
def freshIds : Nat → Nat → List Nat
  | _, 0 => []
  | s, c + 1 => s :: freshIds (s + 1) c

/-- Bounds of the fresh handles. -/
theorem mem_freshIds : ∀ (c s x : Nat), x ∈ freshIds s c → s ≤ x ∧ x < s + c := by
  intro c
  induction c with
  | zero => intro s x h; simp [freshIds] at h
  | succ c ih =>
    intro s x h
    simp only [freshIds, List.mem_cons] at h
    rcases h with h | h
    · omega
    · have := ih (s + 1) x h
      omega

/-- Number of fresh handles. -/
theorem length_freshIds : ∀ (c s : Nat), (freshIds s c).length = c := by
  intro c
  induction c with
  | zero => intro s; rfl
  | succ c ih => intro s; simp [freshIds, ih]

/-- The tail of the dispatch phase opens one fresh tab per URL: it
appends the fresh handles to the open windows, returns them as the
batch's handles, and advances the handle counter. -/
theorem dispatchRest_spec : ∀ (rest : List String) (d : Driver),
    dispatchRest d rest =
      (⟨d.tabs ++ freshIds d.nextId rest.length,
        if rest.length = 0 then d.current else d.nextId + rest.length - 1,
        d.nextId + rest.length⟩,
       freshIds d.nextId rest.length) := by
  intro rest
  induction rest with
  | nil => intro d; simp [dispatchRest, freshIds]
  | cons u rest ih =>
    intro d
    simp only [dispatchRest, openTab, ih, List.length_cons, freshIds, Prod.mk.injEq,
      Driver.mk.injEq]
    refine ⟨⟨?_, ?_, ?_⟩, trivial⟩
    · simp [List.append_assoc]
    · rw [if_neg (Nat.succ_ne_zero rest.length)]
      split
      · next h => simp [h]
      · next h => omega
    · omega

/-- On a driver whose open windows are exactly the batch handles, the
collection phase with every close reached and succeeding closes all
windows but one: the surviving window is one of the batch handles and
becomes current. -/
theorem collect_batch_all_closed (fate : Nat → TabFate)
    (hfate : ∀ h, fate h = .readyClose true ∨ fate h = .lateClose true) :
    ∀ (handles : List Nat) (d : Driver), handles ≠ [] → d.tabs = handles →
    ∃ t', t' ∈ handles ∧
      collect_batch fate d handles = ⟨[t'], t', d.nextId⟩ := by
  intro handles
  induction handles with
  | nil => intro d h _; exact absurd rfl h
  | cons h hs ih =>
    intro d _ htabs
    cases hs with
    | nil =>
      refine ⟨h, List.mem_cons_self _ _, ?_⟩
      rcases hfate h with hf | hf <;>
        simp [collect_batch, hf, closeIfMany, htabs]
    | cons h2 hs2 =>
      have hclose : closeIfMany { d with current := h } true =
          ⟨h2 :: hs2, h, d.nextId⟩ := by
        simp [closeIfMany, htabs, List.erase_cons_head]
      have hstep : collect_batch fate d (h :: h2 :: hs2) =
          collect_batch fate (⟨h2 :: hs2, h, d.nextId⟩ : Driver) (h2 :: hs2) := by
        rcases hfate h with hf | hf <;> simp [collect_batch, hf, hclose]
      obtain ⟨t', ht'mem, ht'eq⟩ :=
        ih (⟨h2 :: hs2, h, d.nextId⟩ : Driver) (by simp) rfl
      exact ⟨t', List.mem_cons_of_mem _ ht'mem, by rw [hstep, ht'eq]⟩

/-- The amended tab bound: starting from a single open window, with
every batch handle reaching its close attempt and every close
succeeding, the running maximum of open windows never exceeds
`max maxSeen n`. -/
theorem tabRunLoop_bound (fate : Nat → TabFate) (past : Nat → Bool) (n : Nat)
    (hn : n ≠ 0) (hfate : ∀ h, fate h = .readyClose true ∨ fate h = .lateClose true) :
    ∀ (m : Nat) (urls : List String), urls.length ≤ m →
    ∀ (k t nid maxSeen : Nat), t < nid →
    (tabRunLoop fate past n k (⟨[t], t, nid⟩ : Driver) maxSeen urls).2 ≤ max maxSeen n := by
  intro m
  induction m with
  | zero =>
    intro urls hlen k t nid maxSeen ht
    have hnil : urls = [] := List.eq_nil_of_length_eq_zero (by omega)
    subst hnil
    simp [tabRunLoop]
  | succ m ih =>
    intro urls hlen k t nid maxSeen ht
    cases urls with
    | nil => simp [tabRunLoop]
    | cons u us =>
      by_cases hp : past k = true
      · simp [tabRunLoop, hp]
      · have hp' : past k = false := by revert hp; cases past k <;> simp
        obtain ⟨nn, rfl⟩ : ∃ nn, n = nn + 1 := ⟨n - 1, by omega⟩
        have hbatch : ((u :: us).take (nn + 1)) = u :: us.take nn := rfl
        have hdisp : dispatch_batch (⟨[t], t, nid⟩ : Driver) (u :: us.take nn) =
            (⟨t :: freshIds nid (us.take nn).length,
              if (us.take nn).length = 0 then t else nid + (us.take nn).length - 1,
              nid + (us.take nn).length⟩,
             t :: freshIds nid (us.take nn).length) := by
          simp [dispatch_batch, dispatchRest_spec]
        obtain ⟨t', ht'mem, ht'eq⟩ := collect_batch_all_closed fate hfate
          (t :: freshIds nid (us.take nn).length)
          (⟨t :: freshIds nid (us.take nn).length,
            if (us.take nn).length = 0 then t else nid + (us.take nn).length - 1,
            nid + (us.take nn).length⟩ : Driver) (by simp) rfl
        have ht' : t' < nid + (us.take nn).length := by
          rcases List.mem_cons.mp ht'mem with h | h
          · omega
          · have := mem_freshIds _ _ _ h
            omega
        have hrec := ih ((u :: us).drop (nn + 1))
          (by simp only [List.length_drop, List.length_cons] at hlen ⊢; omega)
          (k + 1) t' (nid + (us.take nn).length)
          (max (max maxSeen (t :: freshIds nid (us.take nn).length).length) 1) ht'
        have hloop : tabRunLoop fate past (nn + 1) k (⟨[t], t, nid⟩ : Driver) maxSeen (u :: us) =
            tabRunLoop fate past (nn + 1) (k + 1)
              (⟨[t'], t', nid + (us.take nn).length⟩ : Driver)
              (max (max maxSeen (t :: freshIds nid (us.take nn).length).length) 1)
              ((u :: us).drop (nn + 1)) := by
          rw [tabRunLoop]
          simp only [hp', Bool.false_eq_true, if_false, hbatch, hdisp, ht'eq]
          rfl
        rw [hloop]
        refine le_trans hrec ?_
        have hsize : (t :: freshIds nid (us.take nn).length).length ≤ nn + 1 := by
          simp only [List.length_cons, length_freshIds]
          have : (us.take nn).length ≤ nn := by
            simp [List.length_take]
          omega
        simp only [List.length_cons, length_freshIds] at hsize ⊢
        omega

/-- Claim C8 (amended): starting from the driver's single initial
window, if every batch handle's collection reaches its `driver.close()`
attempt and every close succeeds, the number of simultaneously open
windows never exceeds the concurrency bound over the whole
orchestration; the counterexample shows the bound is broken when closes
fail. -/
theorem claim_C8_tab_bound
    (fate : Nat → TabFate) (past : Nat → Bool) (n : Nat) (urls : List String)
    (hn : n ≠ 0)
    (hfate : ∀ h, fate h = .readyClose true ∨ fate h = .lateClose true) :
    (fetchTabRun fate past n urls).2 ≤ n := by
  have := tabRunLoop_bound fate past n hn hfate urls.length urls le_rfl 0 0 1 1 (by omega)
  have hmax : max 1 n = n := by omega
  rw [hmax] at this
  exact this

/-- Witness for the amended C8 bound: four URLs under bound 2 with all
closes succeeding stay within 2 open windows. -/
theorem claim_C8_tab_bound_witness :
    (fetchTabRun (fun _ => TabFate.readyClose true) (fun _ => false) 2
      ["a", "b", "c", "d"]).2 ≤ 2 :=
  claim_C8_tab_bound (fun _ => TabFate.readyClose true) (fun _ => false) 2
    ["a", "b", "c", "d"] (by decide) (fun _ => Or.inl rfl)

/-- Counterexample to C8 as stated: with concurrency bound 2 and four
URLs, if the two closes of the first batch fail (swallowed `close()`
exceptions), both first-batch tabs stay open and the second batch opens
a third window: three tabs are simultaneously open, exceeding the
bound. -/
theorem claim_C8_tab_bound_cex :
    (fetchTabRun (fun _ => TabFate.readyClose false) (fun _ => false) 2
      ["a", "b", "c", "d"]).2 = 3 ∧ 2 < 3 := by
  constructor
  · simp [fetchTabRun, tabRunLoop, initialDriver, dispatch_batch, dispatchRest, openTab,
      collect_batch, closeIfMany]
  · omega

end TorSearch
